import Mathlib

/-!
Verification development for the vector-biz-app retrieval and conversation
backend (`app/search.py`, `app/routes/message.py`, `app/country_config.py`).
Each Python function used by a claim is embedded as an executable Lean
definition; machine floats carrying exact fractions (similarity scores,
RRF scores, difflib ratios) are modelled as rationals.
-/

/-! ## Reciprocal Rank Fusion (`app/search.py`, `_rrf_fuse`, lines 142-160)

`_rrf_fuse` builds `rank_v = {r[0]: i+1 for i, r in enumerate(vec_rows)}`
(a dict, so on a duplicated id the last occurrence wins), the analogous
`rank_f`, scores every id in the union of the key sets with
`1/(K+rv) + 1/(K+rf)` (`K = 60`, an absent rank contributing `0.0`),
sorts descending by score and truncates to `top_k`.  Python's set
iteration order is unspecified; the model fixes first-seen order for the
union, which can only influence the relative order of exact score ties. -/

/-- Rank lookup mirroring the Python dict comprehension
`{r[0]: i+1 for i, r in enumerate(rows)}`: the *last* occurrence of an id
wins, ranks are 1-based, `none` encodes a missing key. -/
def rankFrom (base : Nat) (l : List Nat) (x : Nat) : Option Nat :=
  match l with
  | [] => none
  | y :: ys =>
    match rankFrom (base + 1) ys x with
    | some r => some r
    | none => if y = x then some (base + 1) else none

def rankOf (l : List Nat) (x : Nat) : Option Nat := rankFrom 0 l x

/-- One ranking's contribution to the fused score: `1.0/(K+rank)` when the
id appears in the ranking, else `0.0` (`K = 60`). -/
def rrfContrib : Option Nat → ℚ
  | none => 0
  | some r => 1 / (60 + (r : ℚ))

/-- Fused score of an id, as computed inside `_rrf_fuse`. -/
def rrfScore (v f : List Nat) (i : Nat) : ℚ :=
  rrfContrib (rankOf v i) + rrfContrib (rankOf f i)

/-- The score formula exactly as the specification words it: for each
ranking in which the id appears, add `1/(K + rank)` where `rank` is the
1-based position of the id in that ranking; a ranking in which the id is
absent contributes `0`. -/
def claimContribution (l : List Nat) (i : Nat) : ℚ :=
  if i ∈ l then 1 / (60 + ((l.indexOf i + 1 : Nat) : ℚ)) else 0

def claimScore (v f : List Nat) (i : Nat) : ℚ :=
  claimContribution v i + claimContribution f i

/-- `ids = list({*rank_v.keys(), *rank_f.keys()})`: the union of the two
id sets, modelled in first-seen order (Python set order is unspecified;
it only affects exact ties in the subsequent sort). -/
def fusedIds (v f : List Nat) : List Nat := (v ++ f).dedup

/-- Descending-by-score comparison used for `scored.sort(key=lambda x: x[1],
reverse=True)`. -/
def scoreDescRel : (Nat × ℚ) → (Nat × ℚ) → Prop := fun a b => b.2 ≤ a.2

instance : DecidableRel scoreDescRel := fun a b =>
  inferInstanceAs (Decidable (b.2 ≤ a.2))

instance : IsTotal (Nat × ℚ) scoreDescRel := ⟨fun a b => le_total b.2 a.2⟩

instance : IsTrans (Nat × ℚ) scoreDescRel := ⟨fun _ _ _ hab hbc => le_trans hbc hab⟩

/-- The `(id, score)` pairs after the descending sort. -/
def scoredSorted (v f : List Nat) : List (Nat × ℚ) :=
  List.insertionSort scoreDescRel ((fusedIds v f).map (fun i => (i, rrfScore v f i)))

/-- `order = [_id for _id, _ in scored[:top_k]]`. -/
def rrfOrder (v f : List Nat) (k : Nat) : List Nat :=
  ((scoredSorted v f).map Prod.fst).take k

lemma rankFrom_eq_none_iff (b : Nat) (l : List Nat) (x : Nat) :
    rankFrom b l x = none ↔ x ∉ l := by
  induction l generalizing b with
  | nil => simp [rankFrom]
  | cons y ys ih =>
    cases h : rankFrom (b + 1) ys x with
    | some r =>
      have : x ∈ ys := by
        by_contra hx
        exact absurd h (by simp [(ih (b + 1)).mpr hx])
      simp [rankFrom, h, this]
    | none =>
      have hx : x ∉ ys := (ih (b + 1)).mp h
      by_cases hy : y = x
      · simp [rankFrom, h, hy]
      · have hxy : ¬x = y := fun hh => hy hh.symm
        simp [rankFrom, h, hy, hx, hxy]

lemma rankFrom_nodup_mem (b : Nat) (l : List Nat) (x : Nat)
    (hl : l.Nodup) (hx : x ∈ l) :
    rankFrom b l x = some (b + l.indexOf x + 1) := by
  induction l generalizing b with
  | nil => cases hx
  | cons y ys ih =>
    rcases List.nodup_cons.mp hl with ⟨hy, hys⟩
    by_cases hxy : x = y
    · subst hxy
      have hnone : rankFrom (b + 1) ys x = none := (rankFrom_eq_none_iff _ _ _).mpr hy
      simp [rankFrom, hnone, List.indexOf_cons_self]
    · have hmem : x ∈ ys := by
        rcases List.mem_cons.mp hx with h | h
        · exact absurd h hxy
        · exact h
      have := ih (b + 1) hys hmem
      have hbeq : (y == x) = false := by
        rw [beq_eq_false_iff_ne]
        exact fun hh => hxy hh.symm
      have hidx : (y :: ys).indexOf x = ys.indexOf x + 1 := by
        simp [List.indexOf_cons, hbeq]
      simp [rankFrom, this, hidx]
      omega

lemma rrfContrib_eq_claimContribution (l : List Nat) (hl : l.Nodup) (i : Nat) :
    rrfContrib (rankOf l i) = claimContribution l i := by
  by_cases hi : i ∈ l
  · rw [rankOf, rankFrom_nodup_mem 0 l i hl hi]
    simp [rrfContrib, claimContribution, hi]
  · rw [rankOf, (rankFrom_eq_none_iff 0 l i).mpr hi]
    simp [rrfContrib, claimContribution, hi]

lemma mem_scoredSorted_snd (v f : List Nat) (p : Nat × ℚ)
    (hp : p ∈ scoredSorted v f) : p.2 = rrfScore v f p.1 := by
  have hp' : p ∈ (fusedIds v f).map (fun i => (i, rrfScore v f i)) :=
    (List.perm_insertionSort scoreDescRel _).mem_iff.mp hp
  rcases List.mem_map.mp hp' with ⟨i, _, rfl⟩
  rfl

lemma map_fst_scoredSorted_perm (v f : List Nat) :
    List.Perm ((scoredSorted v f).map Prod.fst) (fusedIds v f) := by
  have h := (List.perm_insertionSort scoreDescRel
    ((fusedIds v f).map (fun i => (i, rrfScore v f i)))).map Prod.fst
  have h2 : List.map Prod.fst ((fusedIds v f).map (fun i => (i, rrfScore v f i)))
      = fusedIds v f := by
    rw [List.map_map]
    exact List.map_id _
  rw [scoredSorted]
  rw [h2] at h
  exact h

lemma rrfOrder_nodup (v f : List Nat) (k : Nat) : (rrfOrder v f k).Nodup := by
  have hnd : ((scoredSorted v f).map Prod.fst).Nodup :=
    (map_fst_scoredSorted_perm v f).nodup_iff.mpr (List.nodup_dedup _)
  exact hnd.sublist (List.take_sublist _ _)

/-- C1: the fusion function assigns each id present in either ranking the
score `Σ 1/(60 + rank)` over the rankings in which it appears (absence
contributing `0`), returns the ids sorted by descending fused score
truncated to `top_k` (with every id surviving when the union fits the
budget), and is deterministic: identical inputs give identical order. -/
theorem rrf_fusion_correct (v f : List Nat) (k : Nat) :
    (v.Nodup → f.Nodup → ∀ i, rrfScore v f i = claimScore v f i)
    ∧ List.Pairwise (fun a b => rrfScore v f b ≤ rrfScore v f a) (rrfOrder v f k)
    ∧ (rrfOrder v f k).length ≤ k
    ∧ (∀ i ∈ rrfOrder v f k, i ∈ v ∨ i ∈ f)
    ∧ ((fusedIds v f).length ≤ k → ∀ i, (i ∈ v ∨ i ∈ f) → i ∈ rrfOrder v f k)
    ∧ (∀ v2 f2 : List Nat, v2 = v → f2 = f → rrfOrder v2 f2 k = rrfOrder v f k) := by
  refine ⟨?_, ?_, ?_, ?_, ?_, ?_⟩
  · intro hv hf i
    rw [rrfScore, claimScore, rrfContrib_eq_claimContribution v hv i,
      rrfContrib_eq_claimContribution f hf i]
  · have hs : List.Pairwise scoreDescRel (scoredSorted v f) :=
      List.sorted_insertionSort scoreDescRel _
    have hs2 : List.Pairwise
        (fun a b : Nat × ℚ => rrfScore v f b.1 ≤ rrfScore v f a.1)
        (scoredSorted v f) := by
      refine List.Pairwise.imp_of_mem ?_ hs
      intro a b ha hb hab
      rw [← mem_scoredSorted_snd v f a ha, ← mem_scoredSorted_snd v f b hb]
      exact hab
    have hs3 : List.Pairwise (fun a b : Nat => rrfScore v f b ≤ rrfScore v f a)
        ((scoredSorted v f).map Prod.fst) := List.pairwise_map.mpr hs2
    exact hs3.sublist (List.take_sublist _ _)
  · rw [rrfOrder]
    exact (List.length_take _ _).le.trans (min_le_left _ _)
  · intro i hi
    have hi2 : i ∈ (scoredSorted v f).map Prod.fst := List.mem_of_mem_take hi
    have hi3 : i ∈ fusedIds v f := (map_fst_scoredSorted_perm v f).mem_iff.mp hi2
    exact List.mem_append.mp (List.mem_dedup.mp hi3)
  · intro hlen i hi
    have hi2 : i ∈ fusedIds v f := List.mem_dedup.mpr (List.mem_append.mpr hi)
    have hi3 : i ∈ (scoredSorted v f).map Prod.fst :=
      (map_fst_scoredSorted_perm v f).mem_iff.mpr hi2
    have hlen2 : ((scoredSorted v f).map Prod.fst).length ≤ k := by
      rw [(map_fst_scoredSorted_perm v f).length_eq]
      exact hlen
    rw [rrfOrder, List.take_of_length_le hlen2]
    exact hi3
  · intro v2 f2 hv hf
    rw [hv, hf]

/-- Witness for `rrf_fusion_correct` at concrete rankings, discharging the
Nodup, budget and determinism hypotheses. -/
theorem rrf_fusion_correct_instance :
    rrfScore [1, 2] [2, 3] 2 = claimScore [1, 2] [2, 3] 2
    ∧ 1 ∈ rrfOrder [1, 2] [2, 3] 4
    ∧ rrfOrder [1, 2] [2, 3] 4 = rrfOrder [1, 2] [2, 3] 4 := by
  refine ⟨(rrf_fusion_correct [1, 2] [2, 3] 4).1 (by decide) (by decide) 2, ?_, ?_⟩
  · exact (rrf_fusion_correct [1, 2] [2, 3] 4).2.2.2.2.1 (by decide) 1
      (Or.inl (by decide))
  · exact (rrf_fusion_correct [1, 2] [2, 3] 4).2.2.2.2.2 [1, 2] [2, 3] rfl rfl

/-! ## Hybrid retrieval (`app/search.py`, `vector_search`, lines 172-233)

The hybrid path embeds the query, runs `_vector_search` and `_fts_search`
(SQL queries whose `LIMIT` is `vec_limit` / `fts_limit`, modelled as
truncating the backend's full ranking), fuses with `_rrf_fuse`, and
returns the first `DEFAULT_CTX_N` fused rows as the `sources` payload.
Hard defaults at lines 16-19: `DEFAULT_TOP_K = 15`,
`DEFAULT_VEC_LIMIT = 90`, `DEFAULT_FTS_LIMIT = 90`, `DEFAULT_CTX_N = 8`.
The metadata JSON is modelled by the four fields the dedup claim reads
(empty string encodes an absent field); the `pretty_source` decoration
does not affect any claim and is omitted. -/

/-- Metadata fields of a chunk row relevant to the logical dedup key. -/
structure ChunkMeta where
  engagement_name : String
  field : String
  doc_name : String
  section_path : String
deriving DecidableEq

/-- A backend row `(id, content, metadata, sim-or-lex score)`. -/
structure DbRow where
  id : Nat
  content : String
  metadata : ChunkMeta
  score : ℚ
deriving DecidableEq

/-- A fused entry of the `by_id` dict built in `_rrf_fuse`. -/
structure SearchHit where
  id : Nat
  content : String
  metadata : ChunkMeta
  sim : Option ℚ
  lex : Option ℚ
deriving DecidableEq

def emptyChunkMeta : ChunkMeta :=
  { engagement_name := "", field := "", doc_name := "", section_path := "" }

/-- The `by_id` dict of `_rrf_fuse`: vector rows are written first (last
occurrence of an id wins), then each fts row either updates `lex` on an
existing entry or inserts content/metadata from its first occurrence.
The final branch is unreachable for ids drawn from either ranking. -/
def byId (v f : List DbRow) (i : Nat) : SearchHit :=
  match (v.reverse).find? (fun r => r.id == i) with
  | some r =>
    { id := i, content := r.content, metadata := r.metadata, sim := some r.score,
      lex := ((f.reverse).find? (fun r2 => r2.id == i)).map DbRow.score }
  | none =>
    match f.find? (fun r => r.id == i) with
    | some r =>
      { id := i, content := r.content, metadata := r.metadata, sim := none,
        lex := ((f.reverse).find? (fun r2 => r2.id == i)).map DbRow.score }
    | none =>
      { id := i, content := "", metadata := emptyChunkMeta, sim := none, lex := none }

/-- `_rrf_fuse(vec_rows, fts_rows, top_k)`: the fused order resolved back
to row payloads through `by_id`. -/
def rrfFuse (v f : List DbRow) (top_k : Nat) : List SearchHit :=
  (rrfOrder (v.map DbRow.id) (f.map DbRow.id) top_k).map (byId v f)

def DEFAULT_TOP_K : Nat := 15
def DEFAULT_VEC_LIMIT : Nat := 90
def DEFAULT_FTS_LIMIT : Nat := 90
def DEFAULT_CTX_N : Nat := 8

/-- Hybrid path of `vector_search`: the two backend rankings truncated by
their SQL `LIMIT`s, fused, and cut to the `sources` context window. -/
def vector_search_hybrid (vRank fRank : List DbRow)
    (top_k vec_limit fts_limit : Nat) : List SearchHit :=
  (rrfFuse (vRank.take vec_limit) (fRank.take fts_limit) top_k).take DEFAULT_CTX_N

/-- `vector_search` with its hard default parameters. -/
def vector_search_default (vRank fRank : List DbRow) : List SearchHit :=
  vector_search_hybrid vRank fRank DEFAULT_TOP_K DEFAULT_VEC_LIMIT DEFAULT_FTS_LIMIT

/-- The logical dedup key named by the specification:
`(engagement_name, field)` when either component is non-empty, else
`(doc_name, section_path)`. -/
def logicalKey (m : ChunkMeta) : (String × String) ⊕ (String × String) :=
  if m.engagement_name ≠ "" ∨ m.field ≠ "" then Sum.inl (m.engagement_name, m.field)
  else Sum.inr (m.doc_name, m.section_path)

lemma byId_id (v f : List DbRow) (i : Nat) : (byId v f i).id = i := by
  unfold byId
  cases h1 : (v.reverse).find? (fun r => r.id == i) with
  | some r => rfl
  | none =>
    cases h2 : f.find? (fun r => r.id == i) with
    | some r => rfl
    | none => rfl

lemma map_byId_id (v f : List DbRow) : ∀ ord : List Nat,
    ord.map (fun i => (byId v f i).id) = ord
  | [] => rfl
  | i :: rest => by rw [List.map_cons, byId_id, map_byId_id v f rest]

/-- C2 counterexample input: two distinct chunk ids carrying the same
`(engagement_name, field)` metadata, both returned by the vector ranking. -/
def c2rows : List DbRow :=
  [{ id := 1, content := "a", metadata :=
      { engagement_name := "Azure Migrate", field := "Formula",
        doc_name := "", section_path := "" }, score := 9/10 },
   { id := 2, content := "b", metadata :=
      { engagement_name := "Azure Migrate", field := "Formula",
        doc_name := "", section_path := "" }, score := 8/10 }]

/-- C2 (counterexample): `vector_search` performs no logical-key
deduplication, so two hits sharing the `(engagement_name, field)` key are
both returned and the claimed invariant fails on this input. -/
theorem search_dedup_key_violated :
    ¬ (((vector_search_default c2rows []).map
        (fun h => logicalKey h.metadata)).Nodup) := by with_unfolding_all decide

/-- C2 (amended): the hit list returned by the retrieval operation
contains at most one hit per chunk id — fusion deduplicates by row id
only, and hits with distinct ids may share a logical key. -/
theorem search_hits_id_nodup (vRank fRank : List DbRow)
    (top_k vec_limit fts_limit : Nat) :
    ((vector_search_hybrid vRank fRank top_k vec_limit fts_limit).map
      SearchHit.id).Nodup := by
  unfold vector_search_hybrid rrfFuse
  rw [List.map_take, List.map_map]
  have h2 : List.map (SearchHit.id ∘ byId (vRank.take vec_limit) (fRank.take fts_limit))
      (rrfOrder ((vRank.take vec_limit).map DbRow.id)
        ((fRank.take fts_limit).map DbRow.id) top_k)
      = rrfOrder ((vRank.take vec_limit).map DbRow.id)
        ((fRank.take fts_limit).map DbRow.id) top_k :=
    map_byId_id _ _ _
  rw [h2]
  exact (rrfOrder_nodup _ _ _).sublist (List.take_sublist _ _)

/-- C7 counterexample input: a vector ranking 91 rows deep whose 91st row
holds the id that the lexical ranking puts first. -/
def c7vRank : List DbRow :=
  ((List.range 90).map (fun n =>
    { id := n, content := "", metadata := emptyChunkMeta, score := 1 }))
  ++ [{ id := 100, content := "x", metadata := emptyChunkMeta, score := 1 }]

def c7fRank : List DbRow :=
  [{ id := 100, content := "x", metadata := emptyChunkMeta, score := 1 }]

set_option maxRecDepth 100000 in
/-- C7 (counterexample): the hard default candidate-pool limits are 90
rows, strictly below `max(top_k*20, 600)`, and enlarging the pool to that
size changes the result on a concrete 91-row ranking — so the rankings
are not requested with a pool of at least `max(k*20, 600)`. -/
theorem candidate_pool_below_spec :
    DEFAULT_VEC_LIMIT < max (DEFAULT_TOP_K * 20) 600
    ∧ DEFAULT_FTS_LIMIT < max (DEFAULT_TOP_K * 20) 600
    ∧ vector_search_default c7vRank c7fRank
      ≠ vector_search_hybrid c7vRank c7fRank DEFAULT_TOP_K
          (max (DEFAULT_TOP_K * 20) 600) (max (DEFAULT_TOP_K * 20) 600) := by
  with_unfolding_all decide

/-- C7 (amended): each ranking is requested with the fixed default
candidate-pool limit of 90 rows (`DEFAULT_VEC_LIMIT = DEFAULT_FTS_LIMIT
= 90`), so the default search result depends only on the first 90 rows
of each backend ranking. -/
theorem candidate_pool_is_ninety :
    DEFAULT_VEC_LIMIT = 90 ∧ DEFAULT_FTS_LIMIT = 90
    ∧ ∀ vRank fRank : List DbRow,
        vector_search_default vRank fRank
          = vector_search_default (vRank.take DEFAULT_VEC_LIMIT)
              (fRank.take DEFAULT_FTS_LIMIT) := by
  refine ⟨rfl, rfl, fun vRank fRank => ?_⟩
  unfold vector_search_default vector_search_hybrid
  simp [List.take_take]

/-! ## Turn handler (`app/routes/message.py`, `post_message`, lines 152-266)

The route validates `MessageIn` (pydantic rejects `text` shorter than 1
character before the handler body runs), ensures the session, appends the
user message, embeds, searches, optionally short-circuits on a detected
canonical field, and otherwise runs the decide/act protocol.  External
calls are modelled as `Except`-valued oracles supplied as inputs; the
side-effect order of the turn is recorded in an effect trace.  The
outcome of the `_canonical_field` regex scan over the query is likewise
an input (`detectedField`), since only its `Option` value steers the
handler.  Payload keys that a branch omits (`options`,
`recommendations`) are modelled as the empty list. -/

/-- A retrieval hit as consumed by the route (`title`, `content`,
`score` keys). -/
structure RouteHit where
  title : String
  content : String
  score : ℚ
deriving DecidableEq

def defaultRouteHit : RouteHit := { title := "", content := "", score := 0 }

/-- The JSON value found under `decision["pick"]`: absent, an integer, or
something that is not an `int`. -/
inductive PickVal
  | absent
  | intVal (i : Int)
  | nonInt
deriving DecidableEq

structure Followup where
  message : String
  options : List String
deriving DecidableEq

/-- A decision payload as returned by `llm_decide` (already JSON-parsed).
An empty `message` models a falsy value under Python `or`. -/
structure Decision where
  mode : String
  why : String
  pick : PickVal
  confidence : ℚ
  followup : Option Followup
  recommendations : Option (List String)
deriving DecidableEq

/-- The fallback decision built in the `except` handler around
`llm_decide` (lines 205-212). -/
def fallbackDecision (e : String) : Decision :=
  { mode := "clarify", why := "decision_error: " ++ e.take 120,
    pick := PickVal.absent, confidence := 0,
    followup := some { message := "Could you clarify your question in one sentence?",
                       options := [] },
    recommendations := none }

/-- `try: decision = llm_decide(...) except: decision = {...}`. -/
def sanitizeDecide : Except String Decision → Decision
  | Except.ok d => d
  | Except.error e => fallbackDecision e

/-- `if not isinstance(pick, int) or pick < 1 or pick > len(hits): pick = 1`
(lines 218-220). -/
def sanitizedPick (p : PickVal) (n : Nat) : Nat :=
  match p with
  | PickVal.intVal i => if 1 ≤ i ∧ i ≤ (n : Int) then i.toNat else 1
  | _ => 1

/-- Boolean form of "pick is an int within `[1, len(hits)]`". -/
def validPick : PickVal → Nat → Bool
  | PickVal.intVal i, n => decide (1 ≤ i) && decide (i ≤ (n : Int))
  | _, _ => false

/-- `chosen_full = hits[pick - 1]` (line 221); the default is unreachable
because the handler only reaches this with a non-empty hit list. -/
def chosenHit (hits : List RouteHit) (d : Decision) : RouteHit :=
  hits.getD (sanitizedPick d.pick hits.length - 1) defaultRouteHit

inductive Effect
  | sessionEnsure
  | sessionWrite
  | embedCall
  | searchCall
  | decideCall
  | answerCall (chosen : RouteHit)
deriving DecidableEq

/-- The caller-facing turn outcomes (`type` discriminator of the returned
payload); `unprocessable` is the pydantic 422 for an invalid body. -/
inductive Resp
  | unprocessable
  | error (tag detail : String)
  | notFound (message : String)
  | answer (engagement text : String) (confidence : ℚ) (recommendations : List String)
  | clarify (message : String) (options : List String) (recommendations : List String)
deriving DecidableEq

/-- Python `s.replace(pat, "", 1)`: drop the first occurrence of `pat`. -/
def replaceFirstOcc (s pat : String) : String :=
  match s.splitOn pat with
  | [] => s
  | [x] => x
  | x :: xs => x ++ String.intercalate pat xs

/-- `_extract_value_from_content` (lines 115-118): strip the content, then
`re.search(r"\bValue:\s*(.*)$", text)` and return the stripped group (or
the whole stripped text on no match).  Since the text is pre-stripped,
the `$` anchor amounts to requiring no newline after the whitespace run
that follows `Value:`; `\b` before `Value:` requires a non-word (or
absent) preceding character. -/
def pyWordChar (c : Char) : Bool := c.isAlphanum || c == '_'

def pyWsChar (c : Char) : Bool :=
  c == ' ' || c == '\t' || c == '\n' || c == '\r' || c == '\x0b' || c == '\x0c'

/-- Python `str.strip()`: drop whitespace from both ends (structural, so
it evaluates by kernel reduction; Lean's own `String.trim` is
well-founded-recursive and does not). -/
def pyStrip (s : String) : String :=
  String.mk (((s.data.dropWhile pyWsChar).reverse.dropWhile pyWsChar).reverse)

def wordCharAtPos (cs : List Char) (p : Nat) : Bool :=
  match cs.get? p with
  | some c => pyWordChar c
  | none => false

def valuePat : List Char := ("Value:").data

def valueMatchAt (cs : List Char) (i : Nat) : Option String :=
  let prevWord := if i = 0 then false else wordCharAtPos cs (i - 1)
  if valuePat.isPrefixOf (cs.drop i) && !prevWord then
    let rem := (cs.drop (i + valuePat.length)).dropWhile pyWsChar
    if rem.contains ('\n') then none
    else some (pyStrip (String.mk rem))
  else none

def extractValue (content : String) : String :=
  let t := pyStrip content
  let cs := t.data
  match (List.range cs.length).findSome? (valueMatchAt cs) with
  | some v => v
  | none => t

/-- The question built for one nearby hit inside
`_fallback_recommendations_from_hits`: split the title on the first
`" · "` into engagement and field when present. -/
def recQuestion (t : String) : String :=
  match t.splitOn (" · ") with
  | [] => "More on " ++ t ++ "?"
  | [_x] => "More on " ++ t ++ "?"
  | x :: xs => String.intercalate (" · ") xs ++ " for " ++ x ++ "?"

/-- Loop body of `_fallback_recommendations_from_hits` (lines 130-147):
skip empty titles, avoid echoing a question already collected, stop once
`n` questions are gathered. -/
def fallbackRecsGo (n : Nat) : List RouteHit → List String → List String
  | [], acc => acc
  | h :: rest, acc =>
    let t := pyStrip h.title
    if t = "" then fallbackRecsGo n rest acc
    else
      let q := recQuestion t
      let acc2 := if acc.contains q then acc else acc ++ [q]
      if n ≤ acc2.length then acc2 else fallbackRecsGo n rest acc2

def fallbackRecs (hits : List RouteHit) (n : Nat) : List String :=
  fallbackRecsGo n ((hits.drop 1).take n) []

/-- Steps 3 and 4 of the route (lines 202-266): sanitize the decision
call result, then act on `mode`. -/
def decideAndAct (hits : List RouteHit) (decideR : Except String Decision)
    (answerR : Except String String) : Resp × List Effect :=
  let decision := sanitizeDecide decideR
  if decision.mode = "answer" then
    let chosen := chosenHit hits decision
    match answerR with
    | Except.error e =>
      (Resp.error ("llm_answer_failed") (e.take 200),
       [Effect.decideCall, Effect.answerCall chosen])
    | Except.ok out =>
      if out.startsWith ("CLARIFY:") then
        (Resp.clarify (pyStrip (out.drop 8)) [] [],
         [Effect.decideCall, Effect.answerCall chosen])
      else
        (Resp.answer chosen.title (pyStrip (replaceFirstOcc out ("ANSWER:")))
          decision.confidence (decision.recommendations.getD (fallbackRecs hits 4)),
         [Effect.decideCall, Effect.answerCall chosen])
  else if decision.mode = "clarify" ∨ decision.mode = "not_understood" then
    let follow := decision.followup.getD { message := "", options := [] }
    let msg := pyStrip (if follow.message = "" then "Could you clarify your question?"
                else follow.message)
    (Resp.clarify msg follow.options [], [Effect.decideCall])
  else
    (Resp.clarify ("Could you clarify your question in one sentence?") []
      (decision.recommendations.getD []), [Effect.decideCall])

/-- `if detected_field and hits:` plus the inner
`float(top.get("score", 0.0)) >= 0.75` test (lines 181-183). -/
def shortCircuitCond (detectedField : Option String) (hits : List RouteHit) : Bool :=
  detectedField.isSome && !hits.isEmpty
    && decide ((3/4 : ℚ) ≤ (hits.headD defaultRouteHit).score)

/-- The handler body after validation.  `q` is the combined user text
(unused by the abstract branches but kept for the call shape);
`detectedField` is the `_canonical_field(q)` outcome; the four `Except`
inputs model the embedding call, the retrieval call, the decision call
and the answer-synthesis call. -/
def post_message (_q : String) (detectedField : Option String)
    (embedR : Except String Unit) (searchR : Except String (List RouteHit))
    (decideR : Except String Decision) (answerR : Except String String) :
    Resp × List Effect :=
  match embedR with
  | Except.error e =>
    (Resp.error ("llm_embed_failed") (e.take 200),
     [Effect.sessionEnsure, Effect.sessionWrite, Effect.embedCall])
  | Except.ok _ =>
    match searchR with
    | Except.error e =>
      (Resp.error ("db_search_failed") (e.take 200),
       [Effect.sessionEnsure, Effect.sessionWrite, Effect.embedCall, Effect.searchCall])
    | Except.ok hits =>
      if hits.isEmpty then
        (Resp.notFound ("No matching content in incentives data."),
         [Effect.sessionEnsure, Effect.sessionWrite, Effect.embedCall, Effect.searchCall])
      else if shortCircuitCond detectedField hits then
        let top := hits.headD defaultRouteHit
        (Resp.answer top.title (extractValue top.content) top.score (fallbackRecs hits 4),
         [Effect.sessionEnsure, Effect.sessionWrite, Effect.embedCall, Effect.searchCall])
      else
        let acted := decideAndAct hits decideR answerR
        (acted.1,
         [Effect.sessionEnsure, Effect.sessionWrite, Effect.embedCall, Effect.searchCall]
           ++ acted.2)

/-- `q = inp.text.strip()`, extended by the optional `selection`. -/
def buildQ (text : String) (selection : Option String) : String :=
  match selection with
  | some s => pyStrip text ++ " " ++ pyStrip s
  | none => pyStrip text

/-- A whole inbound turn: pydantic validation (`text: str =
Field(min_length=1)`) runs before the handler, so an empty `text` is a
422 with no effect at all. -/
def processTurn (text : String) (selection : Option String)
    (detectedField : Option String) (embedR : Except String Unit)
    (searchR : Except String (List RouteHit)) (decideR : Except String Decision)
    (answerR : Except String String) : Resp × List Effect :=
  if text.length < 1 then (Resp.unprocessable, [])
  else post_message (buildQ text selection) detectedField embedR searchR decideR answerR

/-- C3: with `mode = answer` and a non-empty hit list, a pick that is not
an integer in `[1, len(hits)]` is replaced by 1 (so the engine answers
from hit 1 instead of failing), and an in-range pick selects
`hits[pick-1]`; in both cases the answer-synthesis call receives exactly
that hit. -/
theorem pick_sanitization_correct (hits : List RouteHit) (d : Decision)
    (answerR : Except String String) :
    (validPick d.pick hits.length = false →
      sanitizedPick d.pick hits.length = 1
      ∧ chosenHit hits d = hits.getD 0 defaultRouteHit)
    ∧ (∀ i : Int, d.pick = PickVal.intVal i → validPick d.pick hits.length = true →
        sanitizedPick d.pick hits.length = i.toNat
        ∧ chosenHit hits d = hits.getD (i.toNat - 1) defaultRouteHit)
    ∧ (d.mode = "answer" →
        (decideAndAct hits (Except.ok d) answerR).2
          = [Effect.decideCall, Effect.answerCall (chosenHit hits d)]) := by
  refine ⟨?_, ?_, ?_⟩
  · intro hinv
    have h1 : sanitizedPick d.pick hits.length = 1 := by
      cases hp : d.pick with
      | intVal i =>
        rw [hp] at hinv
        simp only [validPick, Bool.and_eq_false_iff, decide_eq_false_iff_not] at hinv
        have : ¬ (1 ≤ i ∧ i ≤ (hits.length : Int)) := by
          intro hc
          rcases hinv with h | h
          · exact h hc.1
          · exact h hc.2
        simp [sanitizedPick, this]
      | absent => simp [sanitizedPick]
      | nonInt => simp [sanitizedPick]
    exact ⟨h1, by rw [chosenHit, h1]⟩
  · intro i hp hv
    rw [hp] at hv
    simp only [validPick, Bool.and_eq_true, decide_eq_true_eq] at hv
    have h1 : sanitizedPick d.pick hits.length = i.toNat := by
      rw [hp]
      simp [sanitizedPick, hv.1, hv.2]
    exact ⟨h1, by rw [chosenHit, h1]⟩
  · intro hm
    unfold decideAndAct
    simp only [sanitizeDecide, hm, if_pos]
    cases answerR with
    | error e => rfl
    | ok out =>
      by_cases hs : out.startsWith ("CLARIFY:")
      · simp [hs]
      · simp [hs]

def c3hits : List RouteHit :=
  [{ title := "T1", content := "C1", score := 9/10 },
   { title := "T2", content := "C2", score := 1/2 }]

def c3dec : Decision :=
  { mode := "answer", why := "", pick := PickVal.nonInt, confidence := 1/2,
    followup := none, recommendations := none }

/-- Witness for `pick_sanitization_correct` on a non-integer pick against
two hits. -/
theorem pick_sanitization_instance :
    sanitizedPick c3dec.pick c3hits.length = 1
    ∧ chosenHit c3hits c3dec = c3hits.getD 0 defaultRouteHit
    ∧ (decideAndAct c3hits (Except.ok c3dec) (Except.ok ("ANSWER: hi"))).2
        = [Effect.decideCall, Effect.answerCall (chosenHit c3hits c3dec)] := by
  have h := pick_sanitization_correct c3hits c3dec (Except.ok ("ANSWER: hi"))
  exact ⟨(h.1 (by with_unfolding_all decide)).1,
         (h.1 (by with_unfolding_all decide)).2,
         h.2.2 (by with_unfolding_all decide)⟩

/-- C5: when the decision call raises, the `except` handler substitutes a
clarify decision with `pick = null`, `confidence = 0.0` and a non-empty
follow-up message, and the turn returns a clarify response — the
exception never escapes (`decideAndAct` is total and is the only path by
which `post_message` consumes the decision result). -/
theorem decide_failure_recovers (e : String) (hits : List RouteHit)
    (answerR : Except String String) :
    (sanitizeDecide (Except.error e)).mode = "clarify"
    ∧ (sanitizeDecide (Except.error e)).pick = PickVal.absent
    ∧ (sanitizeDecide (Except.error e)).confidence = 0
    ∧ (∃ fu, (sanitizeDecide (Except.error e)).followup = some fu ∧ fu.message ≠ "")
    ∧ decideAndAct hits (Except.error e) answerR
        = (Resp.clarify ("Could you clarify your question in one sentence?") [] [],
           [Effect.decideCall]) := by
  exact ⟨rfl, rfl, rfl, ⟨_, rfl, by decide⟩, rfl⟩

/-- C6: a retrieval failure surfaces as the distinct `db_search_failed`
error response (not an empty result), while a successful search with no
hits yields the non-error `not_found` response. -/
theorem search_failure_and_empty_responses (q : String) (df : Option String)
    (e : String) (decideR : Except String Decision) (answerR : Except String String) :
    post_message q df (Except.ok ()) (Except.error e) decideR answerR
      = (Resp.error ("db_search_failed") (e.take 200),
         [Effect.sessionEnsure, Effect.sessionWrite, Effect.embedCall, Effect.searchCall])
    ∧ post_message q df (Except.ok ()) (Except.ok []) decideR answerR
      = (Resp.notFound ("No matching content in incentives data."),
         [Effect.sessionEnsure, Effect.sessionWrite, Effect.embedCall, Effect.searchCall]) := by
  exact ⟨rfl, rfl⟩

/-- C8: an inbound turn with empty text is rejected by request validation
before the handler runs: the effect trace is empty, so no session write,
embedding call, search, or completion call is performed. -/
theorem empty_text_rejected_early (selection : Option String)
    (df : Option String) (embedR : Except String Unit)
    (searchR : Except String (List RouteHit)) (decideR : Except String Decision)
    (answerR : Except String String) :
    processTurn ("") selection df embedR searchR decideR answerR
      = (Resp.unprocessable, []) := rfl

/-- C10: when a canonical field synonym is detected and the top hit
scores at least 0.75, the turn short-circuits into an answer built from
the top hit (`Value:`-extracted content, the hit score as confidence,
fallback recommendations) without invoking the decision or
answer-synthesis models. -/
theorem field_shortcircuit_answer (q : String) (fld : String)
    (top : RouteHit) (rest : List RouteHit) (decideR : Except String Decision)
    (answerR : Except String String) (hscore : (3/4 : ℚ) ≤ top.score) :
    post_message q (some fld) (Except.ok ()) (Except.ok (top :: rest)) decideR answerR
      = (Resp.answer top.title (extractValue top.content) top.score
          (fallbackRecs (top :: rest) 4),
         [Effect.sessionEnsure, Effect.sessionWrite, Effect.embedCall, Effect.searchCall])
    ∧ Effect.decideCall
        ∉ (post_message q (some fld) (Except.ok ()) (Except.ok (top :: rest))
            decideR answerR).2
    ∧ ∀ h2 : RouteHit, Effect.answerCall h2
        ∉ (post_message q (some fld) (Except.ok ()) (Except.ok (top :: rest))
            decideR answerR).2 := by
  have hcond : shortCircuitCond (some fld) (top :: rest) = true := by
    simp [shortCircuitCond, hscore]
  have hmain : post_message q (some fld) (Except.ok ()) (Except.ok (top :: rest))
      decideR answerR
      = (Resp.answer top.title (extractValue top.content) top.score
          (fallbackRecs (top :: rest) 4),
         [Effect.sessionEnsure, Effect.sessionWrite, Effect.embedCall,
          Effect.searchCall]) := by
    simp [post_message, hcond]
  refine ⟨hmain, ?_, ?_⟩
  · rw [hmain]
    simp
  · intro h2
    rw [hmain]
    simp

def c10hit : RouteHit :=
  { title := "D365 CSP Core · Formula",
    content := "Engagement: D365 CSP Core\nField: Formula\nValue: core_billed_revenue * 0.04",
    score := 9/10 }

/-- Witness for `field_shortcircuit_answer` on a formula hit scoring 0.9,
also evaluating the `Value:` extraction. -/
theorem field_shortcircuit_instance :
    post_message ("calc") (some ("Formula")) (Except.ok ()) (Except.ok [c10hit])
        (Except.error ("never called")) (Except.error ("never called"))
      = (Resp.answer c10hit.title (extractValue c10hit.content) c10hit.score
          (fallbackRecs [c10hit] 4),
         [Effect.sessionEnsure, Effect.sessionWrite, Effect.embedCall, Effect.searchCall])
    ∧ extractValue c10hit.content = "core_billed_revenue * 0.04" := by
  refine ⟨?_, by with_unfolding_all decide⟩
  exact (field_shortcircuit_answer ("calc") ("Formula") c10hit []
    (Except.error ("never called")) (Except.error ("never called"))
    (by with_unfolding_all decide)).1

/-! ## Country/market resolver (`app/country_config.py`, lines 11-162)

`resolve_market_from_text` runs a fixed cascade: (1) ISO2 codes as
uppercase-only `\b`-bounded tokens over the raw text; (2) ISO3 codes
case-insensitively over the lowercased text; (3) names and aliases on
word boundaries, longest term first; (4) `difflib.get_close_matches`
over 1-3-word lowercase windows at cutoff 0.86.  `_classify_market`
raises `KeyError` for a country outside the three sets, which every call
site catches by returning tier C — modelled by the catch-all branch of
`mkResult`.  Strings are processed as lists of character codes so that
every stage evaluates by kernel reduction; `\w` and `\s` are the ASCII
sets Python uses on this ASCII data, and the float cutoff is the exact
rational 86/100.  Python iterates sets in unspecified order: the model
fixes source order for candidate lists, which C4's inputs never make
observable (each has a unique match at its stage). -/

def MARKET_A : List String :=
  ["australia", "austria", "belgium", "canada", "denmark", "finland", "france",
   "germany", "iceland", "ireland", "italy", "japan", "luxembourg", "netherlands",
   "new zealand", "norway", "portugal", "spain", "sweden", "switzerland",
   "united kingdom", "united states"]

def MARKET_B : List String :=
  ["bahrain", "barbados", "brazil", "cayman islands", "chile", "china", "colombia",
   "cyprus", "czechia", "estonia", "greece", "hong kong", "indonesia", "israel",
   "jamaica", "korea", "kuwait", "latvia", "lithuania", "malaysia", "malta",
   "mexico", "north macedonia", "oman", "philippines", "poland", "puerto rico",
   "qatar", "saudi arabia", "senegal", "singapore", "slovakia", "slovenia",
   "south africa", "taiwan", "thailand", "united arab emirates", "uruguay"]

def MARKET_C_KNOWN : List String :=
  ["india", "vietnam", "pakistan", "bangladesh", "nepal", "sri lanka", "argentina",
   "peru", "nigeria", "kenya", "morocco", "algeria", "tunisia", "turkey"]

/-- `MARKET_RATE = {"A": 163, "B": 116, "C": 70}`. -/
def marketRate (m : String) : Nat :=
  if m = "A" then 163 else if m = "B" then 116 else 70

def ISO2_TO_NAME : List (String × String) :=
  [("AU", "australia"), ("AT", "austria"), ("BE", "belgium"), ("CA", "canada"),
   ("DK", "denmark"), ("FI", "finland"), ("FR", "france"), ("DE", "germany"),
   ("IS", "iceland"), ("IE", "ireland"), ("IT", "italy"), ("JP", "japan"),
   ("LU", "luxembourg"), ("NL", "netherlands"), ("NZ", "new zealand"),
   ("NO", "norway"), ("PT", "portugal"), ("ES", "spain"), ("SE", "sweden"),
   ("CH", "switzerland"), ("GB", "united kingdom"), ("UK", "united kingdom"),
   ("US", "united states"),
   ("BH", "bahrain"), ("BB", "barbados"), ("BR", "brazil"), ("KY", "cayman islands"),
   ("CL", "chile"), ("CN", "china"), ("CO", "colombia"), ("CY", "cyprus"),
   ("CZ", "czechia"), ("EE", "estonia"), ("GR", "greece"), ("HK", "hong kong"),
   ("ID", "indonesia"), ("IL", "israel"), ("JM", "jamaica"), ("KR", "korea"),
   ("KW", "kuwait"), ("LV", "latvia"), ("LT", "lithuania"), ("MY", "malaysia"),
   ("MT", "malta"), ("MX", "mexico"), ("MK", "north macedonia"), ("OM", "oman"),
   ("PH", "philippines"), ("PL", "poland"), ("PR", "puerto rico"), ("QA", "qatar"),
   ("SA", "saudi arabia"), ("SN", "senegal"), ("SG", "singapore"), ("SK", "slovakia"),
   ("SI", "slovenia"), ("ZA", "south africa"), ("TW", "taiwan"), ("TH", "thailand"),
   ("AE", "united arab emirates"), ("UY", "uruguay"),
   ("IN", "india"), ("VN", "vietnam"), ("PK", "pakistan"), ("BD", "bangladesh"),
   ("NP", "nepal"), ("LK", "sri lanka"), ("TR", "turkey"), ("NG", "nigeria"),
   ("KE", "kenya"), ("AR", "argentina"), ("PE", "peru"), ("MA", "morocco"),
   ("DZ", "algeria"), ("TN", "tunisia")]

def ISO3_TO_NAME : List (String × String) :=
  [("AUS", "australia"), ("AUT", "austria"), ("BEL", "belgium"), ("CAN", "canada"),
   ("DNK", "denmark"), ("FIN", "finland"), ("FRA", "france"), ("DEU", "germany"),
   ("ISL", "iceland"), ("IRL", "ireland"), ("ITA", "italy"), ("JPN", "japan"),
   ("LUX", "luxembourg"), ("NLD", "netherlands"), ("NZL", "new zealand"),
   ("NOR", "norway"), ("PRT", "portugal"), ("ESP", "spain"), ("SWE", "sweden"),
   ("CHE", "switzerland"), ("GBR", "united kingdom"), ("USA", "united states"),
   ("BHR", "bahrain"), ("BRB", "barbados"), ("BRA", "brazil"), ("CYM", "cayman islands"),
   ("CHL", "chile"), ("CHN", "china"), ("COL", "colombia"), ("CYP", "cyprus"),
   ("CZE", "czechia"), ("EST", "estonia"), ("GRC", "greece"), ("HKG", "hong kong"),
   ("IDN", "indonesia"), ("ISR", "israel"), ("JAM", "jamaica"), ("KOR", "korea"),
   ("KWT", "kuwait"), ("LVA", "latvia"), ("LTU", "lithuania"), ("MYS", "malaysia"),
   ("MLT", "malta"), ("MEX", "mexico"), ("MKD", "north macedonia"), ("OMN", "oman"),
   ("PHL", "philippines"), ("POL", "poland"), ("PRI", "puerto rico"), ("QAT", "qatar"),
   ("SAU", "saudi arabia"), ("SEN", "senegal"), ("SGP", "singapore"), ("SVK", "slovakia"),
   ("SVN", "slovenia"), ("ZAF", "south africa"), ("TWN", "taiwan"), ("THA", "thailand"),
   ("ARE", "united arab emirates"), ("URY", "uruguay"),
   ("IND", "india"), ("VNM", "vietnam"), ("PAK", "pakistan"), ("BGD", "bangladesh"),
   ("NPL", "nepal"), ("LKA", "sri lanka"), ("TUR", "turkey"), ("NGA", "nigeria"),
   ("KEN", "kenya"), ("ARG", "argentina"), ("PER", "peru"), ("MAR", "morocco"),
   ("DZA", "algeria"), ("TUN", "tunisia")]

def ALIASES : List (String × String) :=
  [("usa", "united states"), ("u.s.a", "united states"), ("u.s.a.", "united states"),
   ("us", "united states"), ("u.s.", "united states"), ("america", "united states"),
   ("united states of america", "united states"),
   ("uk", "united kingdom"), ("u.k.", "united kingdom"), ("u.k", "united kingdom"),
   ("great britain", "united kingdom"), ("britain", "united kingdom"),
   ("england", "united kingdom"),
   ("uae", "united arab emirates"), ("u.a.e.", "united arab emirates"),
   ("u.a.e", "united arab emirates"),
   ("south korea", "korea"), ("republic of korea", "korea"), ("rok", "korea"),
   ("czech republic", "czechia"),
   ("n. macedonia", "north macedonia"), ("macedonia", "north macedonia"),
   ("hong kong sar", "hong kong"), ("hk", "hong kong"),
   ("bharat", "india"), ("hindustan", "india")]

/-- `ALIASES.get(term, term)`. -/
def aliasCanon (t : String) : String :=
  match ALIASES.find? (fun p => p.1 = t) with
  | some p => p.2
  | none => t

/-- `_classify_market` (lines 95-100) with the `KeyError` catch at every
call site folded in: a canonical country outside all three sets is tier
C at the C rate. -/
def mkResult (canon : String) : String × String × Nat :=
  if MARKET_A.contains canon then (canon, "A", marketRate ("A"))
  else if MARKET_B.contains canon then (canon, "B", marketRate ("B"))
  else if MARKET_C_KNOWN.contains canon then (canon, "C", marketRate ("C"))
  else (canon, "C", marketRate ("C"))

/-- Character codes of a string (all resolver matching is done on codes
so that it evaluates by kernel reduction). -/
def strCodes (s : String) : List Nat := s.data.map Char.toNat

/-- Python regex `\w` over ASCII: letters, digits, underscore. -/
def isWordCode (c : Nat) : Bool :=
  (48 ≤ c && c ≤ 57) || (65 ≤ c && c ≤ 90) || (97 ≤ c && c ≤ 122) || c == 95

/-- ASCII `str.lower()`. -/
def lowerCode (c : Nat) : Nat := if 65 ≤ c && c ≤ 90 then c + 32 else c

def lowerCodes (l : List Nat) : List Nat := l.map lowerCode

def wordCodeAt (cs : List Nat) (p : Nat) : Bool :=
  match cs.get? p with
  | some c => isWordCode c
  | none => false

/-- Python regex `\b` at position `p`: exactly one neighbour is a word
character (out of range counts as non-word). -/
def codeBoundary (cs : List Nat) (p : Nat) : Bool :=
  (if p = 0 then false else wordCodeAt cs (p - 1)) != wordCodeAt cs p

/-- `re.search(rf"\b{re.escape(pat)}\b", text)` as a Boolean, for a
literal pattern. -/
def wordSearchC (cs pat : List Nat) : Bool :=
  (List.range (cs.length + 1)).any
    (fun i => pat.isPrefixOf (cs.drop i) && codeBoundary cs i
      && codeBoundary cs (i + pat.length))

/-- Stage 1: ISO2 codes, uppercase tokens only, over the raw text. -/
def stage_iso2 (text : String) : Option (String × String × Nat) :=
  (ISO2_TO_NAME.find? (fun p => wordSearchC (strCodes text) (strCodes p.1))).map
    (fun p => mkResult p.2)

/-- Stage 2: ISO3 codes, case-insensitive, over the lowercased text. -/
def stage_iso3 (low : List Nat) : Option (String × String × Nat) :=
  (ISO3_TO_NAME.find? (fun p => wordSearchC low (lowerCodes (strCodes p.1)))).map
    (fun p => mkResult p.2)

/-- `names = list(MARKET_A | MARKET_B | MARKET_C_KNOWN)` (set order is
unspecified in Python; source order here). -/
def countryNames : List String := MARKET_A ++ MARKET_B ++ MARKET_C_KNOWN

/-- Relation for `sorted(..., key=len, reverse=True)` on strings. -/
def lenDescRel : String → String → Prop := fun a b => b.length ≤ a.length

instance : DecidableRel lenDescRel := fun a b =>
  inferInstanceAs (Decidable (b.length ≤ a.length))

/-- `sorted(set(list(ALIASES.keys()) + names), key=len, reverse=True)`:
ties between equal-length terms keep the unspecified set order, fixed
here as first-seen source order. -/
def stage3Terms : List String :=
  List.insertionSort lenDescRel ((ALIASES.map Prod.fst ++ countryNames).dedup)

/-- Stage 3: names and aliases on word boundaries, longest first. -/
def stage_names (low : List Nat) : Option (String × String × Nat) :=
  (stage3Terms.find? (fun t => wordSearchC low (strCodes t))).map
    (fun t => mkResult (aliasCanon t))

/-! difflib model: `SequenceMatcher.ratio` is `2*M/T` where `M` totals the
sizes of the recursively-chosen longest matching blocks (ties resolved to
the block starting earliest in `a`, then earliest in `b`, per the difflib
docstring; no junk handling applies to these short strings) and `T` is
the combined length.  `get_close_matches(w, cands, n=1, cutoff)` keeps
candidates whose ratio reaches the cutoff (its quick-ratio pre-filters
are upper bounds of `ratio` and cannot change the survivor set) and
returns the maximum under the `(ratio, candidate)` tuple order that
`heapq.nlargest` compares. -/

def commonPrefixLen : List Nat → List Nat → Nat
  | a :: as2, b :: bs => if a = b then commonPrefixLen as2 bs + 1 else 0
  | _, _ => 0

/-- `find_longest_match` over whole sequences: maximal size, then least
start in `a`, then least start in `b`. -/
def longestMatch (a b : List Nat) : Nat × Nat × Nat :=
  (List.range a.length).foldl
    (fun best i =>
      (List.range b.length).foldl
        (fun best2 j =>
          let k := commonPrefixLen (a.drop i) (b.drop j)
          if best2.2.2 < k then (i, j, k) else best2)
        best)
    (0, 0, 0)

/-- Total matched size over the recursive block decomposition of
`get_matching_blocks`, with fuel (`a.length + b.length` always
suffices since each recursive part is strictly shorter). -/
def matchTotalF : Nat → List Nat → List Nat → Nat
  | 0, _, _ => 0
  | Nat.succ fuel, a, b =>
    let m := longestMatch a b
    if m.2.2 = 0 then 0
    else
      matchTotalF fuel (a.take m.1) (b.take m.2.1) + m.2.2
        + matchTotalF fuel (a.drop (m.1 + m.2.2)) (b.drop (m.2.1 + m.2.2))

/-- `SequenceMatcher(None, a, b).ratio()` (with difflib's convention of
`1.0` on two empty sequences). -/
def ratioVal (a b : List Nat) : ℚ :=
  if a.length + b.length = 0 then 1
  else 2 * (matchTotalF (a.length + b.length) a b : ℚ)
    / ((a.length : ℚ) + (b.length : ℚ))

/-- `get_close_matches(w, cands, n=1, cutoff)`: the candidate maximising
`(ratio, candidate)` among those with `ratio >= cutoff`. -/
def closeMatchBest (w : List Nat) (cands : List String) (cutoff : ℚ) : Option String :=
  (cands.foldl
    (fun best c =>
      let r := ratioVal w (strCodes c)
      if cutoff ≤ r then
        match best with
        | none => some (r, c)
        | some (br, bc) =>
          if br < r || (br = r && bc < c) then some (r, c) else some (br, bc)
      else best)
    none).map Prod.snd

def isLowerAlphaCode (c : Nat) : Bool := 97 ≤ c && c ≤ 122

/-- Python regex `\s` (ASCII). -/
def isWsCode (c : Nat) : Bool :=
  c == 32 || c == 9 || c == 10 || c == 13 || c == 11 || c == 12

/-- Up to `k` greedy extensions `(?:\s+[a-z]+)` of a window. -/
def windowExtend (k : Nat) (rest : List Nat) : List Nat × List Nat :=
  match k with
  | 0 => ([], rest)
  | Nat.succ k1 =>
    let ws := rest.takeWhile isWsCode
    let aft := rest.dropWhile isWsCode
    let run := aft.takeWhile isLowerAlphaCode
    if ws.isEmpty || run.isEmpty then ([], rest)
    else
      let next := windowExtend k1 (aft.dropWhile isLowerAlphaCode)
      (ws ++ run ++ next.1, next.2)

/-- `re.findall(r"[a-z]+(?:\s+[a-z]+){0,2}", low)`: greedy, leftmost,
non-overlapping (fuel = remaining length, each match consumes at least
one character). -/
def findWindowsGo (fuel : Nat) (cs : List Nat) : List (List Nat) :=
  match fuel with
  | 0 => []
  | Nat.succ f =>
    match cs with
    | [] => []
    | c :: rest =>
      if isLowerAlphaCode c then
        let run := (c :: rest).takeWhile isLowerAlphaCode
        let aft := (c :: rest).dropWhile isLowerAlphaCode
        let ext := windowExtend 2 aft
        (run ++ ext.1) :: findWindowsGo f ext.2
      else
        findWindowsGo f rest

def findWindows (cs : List Nat) : List (List Nat) := findWindowsGo cs.length cs

def lenDescRelC : List Nat → List Nat → Prop := fun a b => b.length ≤ a.length

instance : DecidableRel lenDescRelC := fun a b =>
  inferInstanceAs (Decidable (b.length ≤ a.length))

/-- `candidates = list(set(list(ALIASES.keys()) + names))` (order is
irrelevant: `closeMatchBest` takes a maximum). -/
def fuzzyCandidates : List String := (ALIASES.map Prod.fst ++ countryNames).dedup

/-- Stage 4: fuzzy matching of the deduplicated windows, longest first. -/
def stage_fuzzy (low : List Nat) (cutoff : ℚ) : Option (String × String × Nat) :=
  (List.insertionSort lenDescRelC ((findWindows low).dedup)).findSome?
    (fun w => (closeMatchBest w fuzzyCandidates cutoff).map
      (fun hit => mkResult (aliasCanon hit)))

/-- `resolve_market_from_text(text, fuzzy, cutoff)` (lines 102-162):
the four-stage cascade, first match wins, `(None, None, None)` on empty
input or no match at any stage. -/
def resolve_market_from_text (text : String) (fuzzy : Bool) (cutoff : ℚ) :
    Option String × Option String × Option Nat :=
  if text = "" then (none, none, none)
  else
    match stage_iso2 text with
    | some (c, m, r) => (some c, some m, some r)
    | none =>
      match stage_iso3 (lowerCodes (strCodes text)) with
      | some (c, m, r) => (some c, some m, some r)
      | none =>
        match stage_names (lowerCodes (strCodes text)) with
        | some (c, m, r) => (some c, some m, some r)
        | none =>
          if fuzzy then
            match stage_fuzzy (lowerCodes (strCodes text)) cutoff with
            | some (c, m, r) => (some c, some m, some r)
            | none => (none, none, none)
          else (none, none, none)

/-- The resolver at its default arguments `fuzzy=True, cutoff=0.86`. -/
def resolveDefault (text : String) : Option String × Option String × Option Nat :=
  resolve_market_from_text text true (86/100)

set_option maxRecDepth 1000000 in
/-- C4: the resolver cascade on its specified examples — uppercase `"US"`
resolves at the ISO2 stage; lowercase `"us"` fails the case-sensitive
ISO2 stage yet resolves through the alias stage; `"Bharat"` resolves to
india (tier C, 70); the typo `"Brazl"` resolves by fuzzy match at cutoff
0.86 to brazil (tier B, 116); `"Mars"` resolves to the null triple.  The
stage order itself is the fixed ISO2 / ISO3 / names-aliases / fuzzy
cascade by definition of `resolve_market_from_text`. -/
theorem resolver_cascade_examples :
    resolveDefault ("US") = (some ("united states"), some ("A"), some 163)
    ∧ stage_iso2 ("us") = none
    ∧ stage_names (lowerCodes (strCodes ("us"))) = some ("united states", "A", 163)
    ∧ resolveDefault ("us") = (some ("united states"), some ("A"), some 163)
    ∧ resolveDefault ("Bharat") = (some ("india"), some ("C"), some 70)
    ∧ resolveDefault ("Brazl") = (some ("brazil"), some ("B"), some 116)
    ∧ resolveDefault ("Mars") = (none, none, none) := by
  refine ⟨?_, ?_, ?_, ?_, ?_, ?_, ?_⟩
  · with_unfolding_all decide
  · with_unfolding_all decide
  · with_unfolding_all decide
  · with_unfolding_all decide
  · with_unfolding_all decide
  · with_unfolding_all decide
  · with_unfolding_all decide

lemma mkResult_shape (canon : String) :
    ((mkResult canon).2.1 = "A" ∨ (mkResult canon).2.1 = "B"
      ∨ (mkResult canon).2.1 = "C")
    ∧ (mkResult canon).2.2 = marketRate (mkResult canon).2.1 := by
  unfold mkResult
  split_ifs <;> simp [marketRate]

lemma stage_iso2_shape (t : String) (v : String × String × Nat)
    (h : stage_iso2 t = some v) : ∃ canon, v = mkResult canon := by
  rcases Option.map_eq_some'.mp h with ⟨p, _, hp⟩
  exact ⟨p.2, hp.symm⟩

lemma stage_iso3_shape (low : List Nat) (v : String × String × Nat)
    (h : stage_iso3 low = some v) : ∃ canon, v = mkResult canon := by
  rcases Option.map_eq_some'.mp h with ⟨p, _, hp⟩
  exact ⟨p.2, hp.symm⟩

lemma stage_names_shape (low : List Nat) (v : String × String × Nat)
    (h : stage_names low = some v) : ∃ canon, v = mkResult canon := by
  rcases Option.map_eq_some'.mp h with ⟨t, _, ht⟩
  exact ⟨aliasCanon t, ht.symm⟩

lemma stage_fuzzy_shape (low : List Nat) (cutoff : ℚ) (v : String × String × Nat)
    (h : stage_fuzzy low cutoff = some v) : ∃ canon, v = mkResult canon := by
  rcases List.exists_of_findSome?_eq_some h with ⟨w, _, hw⟩
  rcases Option.map_eq_some'.mp hw with ⟨hit, _, hhit⟩
  exact ⟨aliasCanon hit, hhit.symm⟩

/-- C9: the resolver is all-or-nothing — every result is either the null
triple or a fully populated `(country, tier, rate)` with the tier in
`{A, B, C}` and the rate equal to the fixed `MARKET_RATE` table entry for
that tier; and every recognized country outside the A and B sets is
classified as tier C at rate 70. -/
theorem resolver_all_or_nothing :
    (∀ (text : String) (fuzzy : Bool) (cutoff : ℚ),
        resolve_market_from_text text fuzzy cutoff = (none, none, none)
      ∨ ∃ c m r, resolve_market_from_text text fuzzy cutoff = (some c, some m, some r)
          ∧ (m = "A" ∨ m = "B" ∨ m = "C") ∧ r = marketRate m)
    ∧ (∀ canon, MARKET_A.contains canon = false → MARKET_B.contains canon = false →
        (mkResult canon).2.1 = "C" ∧ (mkResult canon).2.2 = 70) := by
  constructor
  · intro text fz co
    unfold resolve_market_from_text
    by_cases ht : text = ""
    · rw [if_pos ht]
      exact Or.inl rfl
    · rw [if_neg ht]
      cases h1 : stage_iso2 text with
      | some v =>
        obtain ⟨canon, rfl⟩ := stage_iso2_shape text v h1
        right
        obtain ⟨hm, hr⟩ := mkResult_shape canon
        rcases h2 : mkResult canon with ⟨c, m, r⟩
        rw [h2] at hm hr
        exact ⟨c, m, r, rfl, hm, hr⟩
      | none =>
        cases h2 : stage_iso3 (lowerCodes (strCodes text)) with
        | some v =>
          obtain ⟨canon, rfl⟩ := stage_iso3_shape _ v h2
          right
          obtain ⟨hm, hr⟩ := mkResult_shape canon
          rcases h3 : mkResult canon with ⟨c, m, r⟩
          rw [h3] at hm hr
          exact ⟨c, m, r, rfl, hm, hr⟩
        | none =>
          cases h3 : stage_names (lowerCodes (strCodes text)) with
          | some v =>
            obtain ⟨canon, rfl⟩ := stage_names_shape _ v h3
            right
            obtain ⟨hm, hr⟩ := mkResult_shape canon
            rcases h4 : mkResult canon with ⟨c, m, r⟩
            rw [h4] at hm hr
            exact ⟨c, m, r, rfl, hm, hr⟩
          | none =>
            cases fz with
            | false => exact Or.inl rfl
            | true =>
              cases h4 : stage_fuzzy (lowerCodes (strCodes text)) co with
              | some v =>
                obtain ⟨canon, rfl⟩ := stage_fuzzy_shape _ co v h4
                right
                obtain ⟨hm, hr⟩ := mkResult_shape canon
                rcases h5 : mkResult canon with ⟨c, m, r⟩
                rw [h5] at hm hr
                exact ⟨c, m, r, rfl, hm, hr⟩
              | none => exact Or.inl rfl
  · intro canon h1 h2
    unfold mkResult
    rw [h1, h2]
    cases h3 : MARKET_C_KNOWN.contains canon <;> simp [marketRate]

/-- Witness for `resolver_all_or_nothing` on the unrecognized country
string `"mars"`, discharging the set-membership hypotheses. -/
theorem resolver_all_or_nothing_instance :
    (mkResult ("mars")).2.1 = "C" ∧ (mkResult ("mars")).2.2 = 70 :=
  resolver_all_or_nothing.2 ("mars") (by decide) (by decide)
